import Mathlib

set_option autoImplicit false

/-!
Shallow embedding of tornpsql (`src/tornpsql/__init__.py`), a thin wrapper
around the psycopg2 PostgreSQL driver.

The driver itself is external to the repository, so each wrapper call is
modelled against an oracle describing what the driver does on that call:
a `Bool` for whether `psycopg2.connect` succeeds, and an `ExecOutcome` for
what `cursor.execute` does.  The wrapper's own control flow (lazy reconnect,
exception handlers, cursor lifetime) is translated line by line from the
Python source; observable resource actions are recorded as an `Event` trace.
-/

/-- Scalar value in a result row; `null` models SQL NULL / Python `None`. -/
inductive Value where
  | null
  | int (n : Int)
  | str (s : String)
deriving DecidableEq, Repr

/-- Python-level exceptions surfaced by the wrapper: `KeyError` /
`AttributeError` from `Row`, `psycopg2.OperationalError`, any other driver
exception, and the `Exception("Multiple rows returned for Database.get()
query")` raised by `get`. -/
inductive PyError where
  | keyError (n : String)
  | attributeError (n : String)
  | operationalError (msg : String)
  | otherError (msg : String)
  | multipleRows
deriving DecidableEq, Repr

/-- `Row` is a Python dict built from `izip(column_names, row)`: an
association list of field name to value in insertion (column) order. -/
abbrev Row : Type := List (String × Value)

/-- Python dict lookup `self[name]` over the insertion sequence: a later
duplicate key overrides an earlier one; `none` models a `KeyError`. -/
def Row.getItem : Row → String → Option Value
  | [], _ => none
  | (k, v) :: rest, n =>
    match Row.getItem rest n with
    | some w => some w
    | none => if k = n then some v else none

/-- Indexed access `row[name]`: the value, or a `KeyError` for a missing
field. -/
def Row.getItemE (r : Row) (n : String) : Except PyError Value :=
  match Row.getItem r n with
  | some v => Except.ok v
  | none => Except.error (PyError.keyError n)

/-- Attribute access `row.name` via `Row.__getattr__`: `try: return
self[name] except KeyError: raise AttributeError(name)`. -/
def Row.getAttrE (r : Row) (n : String) : Except PyError Value :=
  match Row.getItem r n with
  | some v => Except.ok v
  | none => Except.error (PyError.attributeError n)

/-- `Row(izip(column_names, row))` in `Connection.query`: pair each
cursor-reported column name with the value at the same position (`izip`
stops at the shorter sequence). -/
def mkRow (cols : List String) (vals : List Value) : Row :=
  List.zip cols vals

/-! ### The connection-URL regex

`Connection.__init__` parses `host_or_url` with
`re.search('postgres://(?P<user>[\w\-]+):(?P<password>[\w\-]*)@(?P<host>.*):(?P<port>\d+)/(?P<database>[\w\-]+)', host_or_url)`.
The matcher below implements exactly this pattern's Python `re.search`
semantics (leftmost start position; greedy quantifiers with backtracking;
`.` not matching a newline; ASCII `\w`).  For the character-class groups
(`[\w\-]+`, `[\w\-]*`, `\d+`) the delimiter that follows in the pattern
(`:`, `@`, `/`) lies outside the class, so a shorter-than-maximal munch is
always immediately rejected by the delimiter: maximal munch (`takeWhile`)
is therefore exactly the backtracking semantics for them.  Only the `.*`
host group needs genuine backtracking, implemented in `matchHostTail` by
preferring at every character to extend the host (greedy) over stopping. -/

/-- ASCII `\w`: letters, digits, underscore (Python 2 `re` default). -/
def isWordChar (c : Char) : Bool :=
  c.isAlphanum || c = '_'

/-- The character class `[\w\-]`. -/
def isWordHyphen (c : Char) : Bool :=
  isWordChar c || c = '-'

/-- Captured groups of the URL regex, each a string exactly as
`groupdict()` returns it (in particular `port` is text, not a number). -/
structure UrlArgs where
  user : String
  password : String
  host : String
  port : String
  database : String
deriving DecidableEq, Repr

/-- Greedy match of the pattern tail `(?P<host>.*):(?P<port>\d+)/(?P<database>[\w\-]+)`
returning the captured `(host, port, database)` character lists.  At each
character the greedy `.*` prefers to extend the host (when the character is
not a newline) and only otherwise tries to end the host at a `:` here. -/
def matchHostTail : List Char → Option (List Char × List Char × List Char)
  | [] => none
  | c :: rest =>
    match (if c ≠ '\n' then matchHostTail rest else none) with
    | some (h, pt, db) => some (c :: h, pt, db)
    | none =>
      if c = ':' then
        let pt := rest.takeWhile Char.isDigit
        let rest2 := rest.dropWhile Char.isDigit
        if pt = [] then none
        else
          match rest2 with
          | '/' :: rest3 =>
            let db := rest3.takeWhile isWordHyphen
            if db = [] then none else some ([], pt, db)
          | _ => none
      else none

/-- Match of the pattern after the literal `postgres://`:
`([\w\-]+):([\w\-]*)@` then the host tail. -/
def matchUserTail (s : List Char) : Option UrlArgs :=
  let u := s.takeWhile isWordHyphen
  let r1 := s.dropWhile isWordHyphen
  if u = [] then none
  else
    match r1 with
    | ':' :: r2 =>
      let p := r2.takeWhile isWordHyphen
      let r3 := r2.dropWhile isWordHyphen
      match r3 with
      | '@' :: r4 =>
        (matchHostTail r4).map fun x =>
          ⟨⟨u⟩, ⟨p⟩, ⟨x.1⟩, ⟨x.2.1⟩, ⟨x.2.2⟩⟩
      | _ => none
    | _ => none

/-- The literal `postgres://` that anchors the pattern. -/
def urlLit : List Char := "postgres://".toList

/-- Does `pat` occur at the start of `s`? (used for the pattern's literal
and for Python's `str.startswith`). -/
def startsWithChars : List Char → List Char → Bool
  | [], _ => true
  | _ :: _, [] => false
  | p :: ps, c :: cs => p = c && startsWithChars ps cs

/-- Attempt the whole pattern at one start position. -/
def matchAt (s : List Char) : Option UrlArgs :=
  if startsWithChars urlLit s then matchUserTail (s.drop urlLit.length)
  else none

/-- `re.search`: try each start position left to right. -/
def searchUrl : List Char → Option UrlArgs
  | [] => none
  | c :: rest =>
    match matchAt (c :: rest) with
    | some r => some r
    | none => searchUrl rest

/-- Python's `host_or_url.startswith('postgres://')`. -/
def pyStartsWith (s pat : String) : Bool :=
  startsWithChars pat.toList s.toList

/-! ### Connection state -/

/-- The `port` entry of the stored argument dict: the structured form
stores the Python int passed in (default `5432`); the URL form stores the
regex capture, a string. -/
inductive PortVal where
  | intVal (n : Nat)
  | strVal (s : String)
deriving DecidableEq, Repr

/-- The dict `self._db_args` handed to `psycopg2.connect`.  In the
structured form `database`, `user` and `password` may be Python `None`
(modelled as `none`); the URL form always stores strings. -/
structure ConnArgs where
  host : String
  database : Option String
  user : Option String
  password : Option String
  port : PortVal
deriving DecidableEq, Repr

/-- A `Connection` object: `self.host`, `self.database`, the link handle
`self._db` (absent when closed / never opened; when present it records the
arguments the link was opened with), and `self._db_args`. -/
structure Connection where
  host : String
  database : Option String
  db : Option ConnArgs
  db_args : ConnArgs
deriving DecidableEq, Repr

/-- Observable resource actions of one wrapper call. -/
inductive Event where
  | linkClosed
  | reconnected (args : ConnArgs)
  | cursorAcquired
  | statementExecuted
  | cursorClosed
deriving DecidableEq, Repr

/-- Oracle for one `cursor.execute` call: the driver either yields a result
(`description` is the column metadata, absent for statements without a
result set; `rows`; `rowcount`), raises `psycopg2.OperationalError`, or
raises some other exception. -/
inductive ExecOutcome where
  | ok (description : Option (List String)) (rows : List (List Value)) (rowcount : Int)
  | operationalErr (msg : String)
  | otherErr (msg : String)
deriving DecidableEq, Repr

/-- What the cursor exposes after a successful `execute`. -/
structure ExecData where
  description : Option (List String)
  rows : List (List Value)
  rowcount : Int
deriving DecidableEq, Repr

/-- Result of one wrapper call: the returned value or raised exception, the
connection state afterwards, and the trace of resource events. -/
structure CallResult (α : Type) where
  result : Except PyError α
  conn : Connection
  events : List Event
deriving Repr

/-- `Connection.close`: closes the link if one is open and clears the
handle; a no-op otherwise. -/
def closeConn (c : Connection) : Connection × List Event :=
  match c.db with
  | some _ => ({ c with db := none }, [Event.linkClosed])
  | none => (c, [])

/-- `Connection.reconnect`: `self.close()`, then `psycopg2.connect(**self._db_args)`
(outcome given by the `connectOk` oracle), then autocommit mode. -/
def reconnectCall (c : Connection) (connectOk : Bool) :
    Except PyError Unit × Connection × List Event :=
  let cl := closeConn c
  if connectOk then
    (Except.ok (), { cl.1 with db := some c.db_args },
      cl.2 ++ [Event.reconnected c.db_args])
  else
    (Except.error (PyError.operationalError "connect"), cl.1, cl.2)

/-- `Connection._ensure_connected`: reconnect only when the handle is
absent. -/
def ensureConnectedCall (c : Connection) (connectOk : Bool) :
    Except PyError Unit × Connection × List Event :=
  match c.db with
  | none => reconnectCall c connectOk
  | some _ => (Except.ok (), c, [])

/-- `Connection._execute` body: `cursor.execute(query, parameters)`; a
`psycopg2.OperationalError` is logged, `self.close()` is called, and the
error re-raised; any other exception propagates untouched. -/
def executeInner (c : Connection) (o : ExecOutcome) :
    Except PyError ExecData × Connection × List Event :=
  match o with
  | ExecOutcome.ok d r n => (Except.ok ⟨d, r, n⟩, c, [Event.statementExecuted])
  | ExecOutcome.operationalErr m =>
    let cl := closeConn c
    (Except.error (PyError.operationalError m), cl.1, cl.2)
  | ExecOutcome.otherErr m => (Except.error (PyError.otherError m), c, [])

/-- Python truthiness of `cursor.description` (`None` and the empty tuple
are falsy). -/
def descTruthy : Option (List String) → Bool
  | none => false
  | some cols => !cols.isEmpty

/-- `Connection.query`: acquire a cursor via `_cursor` (which ensures a
live link), run `_execute` inside `try/except` (the handler closes the
cursor and re-raises), then if `cursor.description` is truthy wrap every
fetched row as a `Row` in cursor column order; otherwise fall through and
return Python `None`. -/
def queryCall (c : Connection) (connectOk : Bool) (o : ExecOutcome) :
    CallResult (Option (List Row)) :=
  match ensureConnectedCall c connectOk with
  | (Except.error e, c1, evs) => ⟨Except.error e, c1, evs⟩
  | (Except.ok _, c1, evs) =>
    let evs1 := evs ++ [Event.cursorAcquired]
    match executeInner c1 o with
    | (Except.error e, c2, evs2) =>
      ⟨Except.error e, c2, evs1 ++ evs2 ++ [Event.cursorClosed]⟩
    | (Except.ok d, c2, evs2) =>
      let res : Option (List Row) :=
        if descTruthy d.description then
          some (d.rows.map (mkRow (d.description.getD [])))
        else none
      ⟨Except.ok res, c2, evs1 ++ evs2⟩

/-- `Connection.get`: run `query`; `None`/empty is mapped to `None`, more
than one row raises, exactly one row is returned. -/
def getCall (c : Connection) (connectOk : Bool) (o : ExecOutcome) :
    CallResult (Option Row) :=
  let q := queryCall c connectOk o
  match q.result with
  | Except.error e => ⟨Except.error e, q.conn, q.events⟩
  | Except.ok rows =>
    match rows with
    | none => ⟨Except.ok none, q.conn, q.events⟩
    | some [] => ⟨Except.ok none, q.conn, q.events⟩
    | some [r] => ⟨Except.ok (some r), q.conn, q.events⟩
    | some (_ :: _ :: _) => ⟨Except.error PyError.multipleRows, q.conn, q.events⟩

/-- `Connection.execute_rowcount`: acquire a cursor, `try: _execute; return
cursor.rowcount finally: cursor.close()` — the cursor is closed on both the
return and the raise path. -/
def executeRowcountCall (c : Connection) (connectOk : Bool) (o : ExecOutcome) :
    CallResult Int :=
  match ensureConnectedCall c connectOk with
  | (Except.error e, c1, evs) => ⟨Except.error e, c1, evs⟩
  | (Except.ok _, c1, evs) =>
    let evs1 := evs ++ [Event.cursorAcquired]
    match executeInner c1 o with
    | (Except.error e, c2, evs2) =>
      ⟨Except.error e, c2, evs1 ++ evs2 ++ [Event.cursorClosed]⟩
    | (Except.ok d, c2, evs2) =>
      ⟨Except.ok d.rowcount, c2, evs1 ++ evs2 ++ [Event.cursorClosed]⟩

/-- `Connection.__init__`: parse the URL form (raising `AttributeError`
when `re.search` returns `None` and `.groupdict()` is called on it) or take
the structured fields, store the argument dict, then attempt the initial
`reconnect()` with any failure swallowed (logged only) leaving `_db`
absent. -/
def connInit (hostOrUrl : String) (database user password : Option String)
    (port : Nat) (connectOk : Bool) : Except PyError Connection :=
  if pyStartsWith hostOrUrl "postgres://" then
    match searchUrl hostOrUrl.toList with
    | none => Except.error (PyError.attributeError "groupdict")
    | some u =>
      let args : ConnArgs :=
        ⟨u.host, some u.database, some u.user, some u.password, PortVal.strVal u.port⟩
      Except.ok
        { host := u.host, database := some u.database,
          db := if connectOk then some args else none, db_args := args }
  else
    let args : ConnArgs := ⟨hostOrUrl, database, user, password, PortVal.intVal port⟩
    Except.ok
      { host := hostOrUrl, database := database,
        db := if connectOk then some args else none, db_args := args }

/-- A concrete argument dict for witness instantiations. -/
def baseArgs : ConnArgs :=
  ⟨"localhost", some "testdb", some "u", some "p", PortVal.intVal 5432⟩

/-- A connection whose link is open, for witness instantiations. -/
def testConnOpen : Connection :=
  ⟨"localhost", some "testdb", some baseArgs, baseArgs⟩

/-- A connection whose link is absent, for witness instantiations. -/
def testConnClosed : Connection :=
  ⟨"localhost", some "testdb", none, baseArgs⟩

/-! ### Helper lemmas -/

theorem takeWhile_append_delim {p : Char → Bool} {L R : List Char} {c : Char}
    (hL : ∀ x ∈ L, p x = true) (hc : p c = false) :
    (L ++ c :: R).takeWhile p = L := by
  induction L with
  | nil => simp [List.takeWhile_cons, hc]
  | cons a as ih =>
    have ha : p a = true := hL a (by simp)
    have ih' := ih (fun x hx => hL x (by simp [hx]))
    simp [List.takeWhile_cons, ha, ih']

theorem dropWhile_append_delim {p : Char → Bool} {L R : List Char} {c : Char}
    (hL : ∀ x ∈ L, p x = true) (hc : p c = false) :
    (L ++ c :: R).dropWhile p = c :: R := by
  induction L with
  | nil => simp [List.dropWhile_cons, hc]
  | cons a as ih =>
    have ha : p a = true := hL a (by simp)
    have ih' := ih (fun x hx => hL x (by simp [hx]))
    simp [List.dropWhile_cons, ha, ih']

theorem takeWhile_of_all {p : Char → Bool} {L : List Char}
    (hL : ∀ x ∈ L, p x = true) : L.takeWhile p = L := by
  induction L with
  | nil => rfl
  | cons a as ih =>
    have ha : p a = true := hL a (by simp)
    have ih' := ih (fun x hx => hL x (by simp [hx]))
    simp [List.takeWhile_cons, ha, ih']

theorem startsWithChars_append (L R : List Char) :
    startsWithChars L (L ++ R) = true := by
  induction L with
  | nil => rfl
  | cons a as ih => simp [startsWithChars, ih]

theorem mem_of_startsWithChars {L s : List Char} (h : startsWithChars L s = true)
    {c : Char} (hc : c ∈ L) : c ∈ s := by
  induction L generalizing s with
  | nil => cases hc
  | cons a as ih =>
    cases s with
    | nil => simp [startsWithChars] at h
    | cons b bs =>
      simp only [startsWithChars, Bool.and_eq_true, decide_eq_true_eq] at h
      rcases List.mem_cons.mp hc with rfl | hc'
      · exact List.mem_cons.mpr (Or.inl h.1)
      · exact List.mem_cons.mpr (Or.inr (ih h.2 hc'))

theorem matchHostTail_of_no_colon {L : List Char} (h : ∀ c ∈ L, c ≠ ':') :
    matchHostTail L = none := by
  induction L with
  | nil => rfl
  | cons c cs ih =>
    have hc : c ≠ ':' := h c (by simp)
    have ih' := ih (fun x hx => h x (by simp [hx]))
    by_cases hn : c = '\n' <;> simp [matchHostTail, hn, ih', hc]

theorem matchHostTail_eq {H PT D : List Char}
    (hH : ∀ c ∈ H, c ≠ ':' ∧ c ≠ '\n')
    (hPT : PT ≠ []) (hPTd : ∀ c ∈ PT, c.isDigit = true)
    (hD : D ≠ []) (hDw : ∀ c ∈ D, isWordHyphen c = true) :
    matchHostTail (H ++ ':' :: (PT ++ '/' :: D)) = some (H, PT, D) := by
  induction H with
  | nil =>
    have hrest : matchHostTail (PT ++ '/' :: D) = none := by
      refine matchHostTail_of_no_colon (fun c hc => ?_)
      rcases List.mem_append.mp hc with h1 | h2
      · intro he
        have := hPTd c h1
        rw [he] at this
        simp [Char.isDigit] at this
      · rcases List.mem_cons.mp h2 with rfl | h3
        · decide
        · intro he
          have := hDw c h3
          rw [he] at this
          simp [isWordHyphen, isWordChar] at this
    have hpt : (PT ++ '/' :: D).takeWhile Char.isDigit = PT :=
      takeWhile_append_delim hPTd (by decide)
    have hdr : (PT ++ '/' :: D).dropWhile Char.isDigit = '/' :: D :=
      dropWhile_append_delim hPTd (by decide)
    have hdb : D.takeWhile isWordHyphen = D := takeWhile_of_all hDw
    rw [List.nil_append]
    simp [matchHostTail, hrest, hpt, hdr, hdb, hPT, hD]
  | cons c cs ih =>
    have hc := hH c (by simp)
    have ih' := ih (fun x hx => hH x (by simp [hx]))
    rw [List.cons_append]
    simp [matchHostTail, hc.2, ih']

theorem matchUserTail_eq {U P H PT D : List Char}
    (hU : U ≠ []) (hUw : ∀ c ∈ U, isWordHyphen c = true)
    (hP : ∀ c ∈ P, isWordHyphen c = true)
    (hH : ∀ c ∈ H, c ≠ ':' ∧ c ≠ '\n')
    (hPT : PT ≠ []) (hPTd : ∀ c ∈ PT, c.isDigit = true)
    (hD : D ≠ []) (hDw : ∀ c ∈ D, isWordHyphen c = true) :
    matchUserTail (U ++ ':' :: (P ++ '@' :: (H ++ ':' :: (PT ++ '/' :: D)))) =
      some ⟨⟨U⟩, ⟨P⟩, ⟨H⟩, ⟨PT⟩, ⟨D⟩⟩ := by
  have hu1 : (U ++ ':' :: (P ++ '@' :: (H ++ ':' :: (PT ++ '/' :: D)))).takeWhile isWordHyphen
      = U := takeWhile_append_delim hUw (by decide)
  have hu2 : (U ++ ':' :: (P ++ '@' :: (H ++ ':' :: (PT ++ '/' :: D)))).dropWhile isWordHyphen
      = ':' :: (P ++ '@' :: (H ++ ':' :: (PT ++ '/' :: D))) :=
    dropWhile_append_delim hUw (by decide)
  have hp1 : (P ++ '@' :: (H ++ ':' :: (PT ++ '/' :: D))).takeWhile isWordHyphen = P :=
    takeWhile_append_delim hP (by decide)
  have hp2 : (P ++ '@' :: (H ++ ':' :: (PT ++ '/' :: D))).dropWhile isWordHyphen
      = '@' :: (H ++ ':' :: (PT ++ '/' :: D)) :=
    dropWhile_append_delim hP (by decide)
  have hhost := matchHostTail_eq hH hPT hPTd hD hDw
  rw [matchUserTail]
  rw [hu1, hu2]
  simp only [hU, if_false, hp1, hp2, hhost, Option.map_some]
  simp [hU]

theorem searchUrl_cons (c : Char) (rest : List Char) :
    searchUrl (c :: rest) =
      (match matchAt (c :: rest) with
        | some r => some r
        | none => searchUrl rest) := rfl

theorem searchUrl_eq {s0 : List Char} {r : UrlArgs}
    (h : matchUserTail s0 = some r) : searchUrl (urlLit ++ s0) = some r := by
  have hma : matchAt (urlLit ++ s0) = some r := by
    rw [matchAt, startsWithChars_append, if_pos rfl, List.drop_left, h]
  have he : urlLit ++ s0 = 'p' :: ("ostgres://".toList ++ s0) := rfl
  rw [he] at hma
  rw [he, searchUrl_cons, hma]

theorem queryCall_ok (c : Connection) (b : Bool) (d : Option (List String))
    (rows : List (List Value)) (n : Int) (hlive : c.db ≠ none ∨ b = true) :
    (queryCall c b (ExecOutcome.ok d rows n)).result =
      Except.ok (if descTruthy d then some (rows.map (mkRow (d.getD []))) else none) := by
  cases hdb : c.db with
  | some a => simp [queryCall, ensureConnectedCall, hdb, executeInner]
  | none =>
    have hb : b = true := by
      rcases hlive with h | h
      · exact absurd hdb h
      · exact h
    subst hb
    simp [queryCall, ensureConnectedCall, hdb, reconnectCall, closeConn, executeInner]

/-! ### Claim theorems -/

/-- C9: for every `Row` and field name, attribute-style lookup returns the
same value as indexed lookup whenever the field is present (including a
present field whose value is null, which yields a value rather than an
error), and when the field is absent both access forms fail with a lookup
error (`KeyError` for indexing, `AttributeError` for attribute access). -/
theorem row_access_equivalence (r : Row) (n : String) :
    (∀ v, Row.getItem r n = some v →
        Row.getItemE r n = Except.ok v ∧ Row.getAttrE r n = Except.ok v) ∧
      (Row.getItem r n = none →
        Row.getItemE r n = Except.error (PyError.keyError n) ∧
        Row.getAttrE r n = Except.error (PyError.attributeError n)) := by
  constructor
  · intro v hv
    simp [Row.getItemE, Row.getAttrE, hv]
  · intro hv
    simp [Row.getItemE, Row.getAttrE, hv]

/-- Witness for `row_access_equivalence` on a row with a present null field
and a missing field. -/
theorem row_access_equivalence_witness :
    Row.getItemE [("a", Value.null)] "a" = Except.ok Value.null ∧
      Row.getAttrE [("a", Value.null)] "a" = Except.ok Value.null ∧
      Row.getAttrE [("a", Value.null)] "b" = Except.error (PyError.attributeError "b") :=
  ⟨((row_access_equivalence [("a", Value.null)] "a").1 Value.null (by decide)).1,
    ((row_access_equivalence [("a", Value.null)] "a").1 Value.null (by decide)).2,
    ((row_access_equivalence [("a", Value.null)] "b").2 (by decide)).2⟩

/-- C8: `close()` is idempotent: after one `close` the handle is absent, a
second `close` is a no-op returning the unchanged state, closing an open
link clears the handle (and closes the link), and closing an already
closed connection changes nothing. -/
theorem close_idempotent (c : Connection) :
    (closeConn c).1.db = none ∧
      closeConn (closeConn c).1 = ((closeConn c).1, []) ∧
      (∀ l, c.db = some l → closeConn c = ({ c with db := none }, [Event.linkClosed])) ∧
      (c.db = none → closeConn c = (c, [])) := by
  cases hdb : c.db with
  | some a => refine ⟨?_, ?_, ?_, ?_⟩ <;> simp [closeConn, hdb]
  | none => refine ⟨?_, ?_, ?_, ?_⟩ <;> simp [closeConn, hdb]

/-- Witness for `close_idempotent` on a concrete open connection. -/
theorem close_idempotent_witness :
    (closeConn testConnOpen).1.db = none ∧
      closeConn testConnOpen = ({ testConnOpen with db := none }, [Event.linkClosed]) :=
  ⟨(close_idempotent testConnOpen).1,
    (close_idempotent testConnOpen).2.2.1 baseArgs rfl⟩

/-- C7: whenever construction reaches the initial connection attempt (the
argument is not URL-shaped, or the URL parses) and that attempt fails, the
constructor still returns an object, in disconnected state (`_db` absent),
instead of raising. -/
theorem init_swallows_connect_failure (s : String) (d u p : Option String) (port : Nat)
    (hreach : pyStartsWith s "postgres://" = false ∨ ∃ a, searchUrl s.toList = some a) :
    ∃ conn, connInit s d u p port false = Except.ok conn ∧ conn.db = none := by
  by_cases hs : pyStartsWith s "postgres://" = true
  · rcases hreach with hf | ⟨a, ha⟩
    · rw [hs] at hf
      cases hf
    · have ha' : searchUrl s.data = some a := ha
      refine ⟨⟨a.host, some a.database, none,
        ⟨a.host, some a.database, some a.user, some a.password, PortVal.strVal a.port⟩⟩, ?_, rfl⟩
      simp [connInit, hs, ha, ha']
  · have hs' : pyStartsWith s "postgres://" = false := by
      cases h : pyStartsWith s "postgres://"
      · rfl
      · exact absurd h hs
    refine ⟨⟨s, d, none, ⟨s, d, u, p, PortVal.intVal port⟩⟩, ?_, rfl⟩
    simp [connInit, hs']

/-- Witness for `init_swallows_connect_failure` on the structured form. -/
theorem init_swallows_connect_failure_witness :
    ∃ conn, connInit "localhost" (some "testdb") (some "u") (some "p") 5432 false =
        Except.ok conn ∧ conn.db = none :=
  init_swallows_connect_failure "localhost" (some "testdb") (some "u") (some "p") 5432
    (Or.inl (by decide))

/-- C10: construction is not total over URL-shaped inputs: the string
`postgres://u:p@h/db` starts with `postgres://` but lacks a port, so the
fixed pattern does not match and construction raises (the `AttributeError`
from calling `.groupdict()` on `None`) instead of returning an object. -/
theorem url_construction_not_total :
    pyStartsWith "postgres://u:p@h/db" "postgres://" = true ∧
      connInit "postgres://u:p@h/db" none none none 5432 true =
        Except.error (PyError.attributeError "groupdict") := by
  constructor
  · decide
  · rfl

/-- C1: when the executed statement yields a result set (`cursor.description`
truthy) with exactly one row, `get` returns that single `Row`; with zero
rows it returns `None`; with two or more rows it raises the multiple-rows
error.  `hlive` says the call can obtain a cursor (link open, or a lazy
reconnect succeeds). -/
theorem get_cardinality (c : Connection) (b : Bool) (cols : List String)
    (rows : List (List Value)) (n : Int)
    (hlive : c.db ≠ none ∨ b = true) (hcols : cols ≠ []) :
    (rows = [] →
        (getCall c b (ExecOutcome.ok (some cols) rows n)).result = Except.ok none) ∧
      (∀ v, rows = [v] →
        (getCall c b (ExecOutcome.ok (some cols) rows n)).result =
          Except.ok (some (mkRow cols v))) ∧
      (2 ≤ rows.length →
        (getCall c b (ExecOutcome.ok (some cols) rows n)).result =
          Except.error PyError.multipleRows) := by
  have hq := queryCall_ok c b (some cols) rows n hlive
  have hd : descTruthy (some cols) = true := by
    simp [descTruthy, hcols]
  rw [hd, if_pos rfl] at hq
  refine ⟨?_, ?_, ?_⟩
  · rintro rfl
    simp [getCall, hq]
  · rintro v rfl
    simp [getCall, hq]
  · intro hlen
    match rows, hlen with
    | v1 :: v2 :: rest, _ => simp [getCall, hq]

/-- Witness for `get_cardinality` in the one-row case on a concrete open
connection. -/
theorem get_cardinality_witness :
    (getCall testConnOpen true (ExecOutcome.ok (some ["a"]) [[Value.int 7]] 1)).result =
      Except.ok (some (mkRow ["a"] [Value.int 7])) :=
  (get_cardinality testConnOpen true ["a"] [[Value.int 7]] 1 (Or.inr rfl)
      (by decide)).2.1 [Value.int 7] rfl

/-- C2: when the statement produced a result set (truthy column metadata),
`query` returns one `Row` per result row in order, each row pairing the
cursor-reported column names positionally with the row values (so the
fields are in cursor column order); when no result set was produced
(`description` absent), `query` returns `None`. -/
theorem query_shape (c : Connection) (b : Bool) (cols : List String)
    (rows : List (List Value)) (n : Int)
    (hlive : c.db ≠ none ∨ b = true) (hcols : cols ≠ []) :
    (queryCall c b (ExecOutcome.ok (some cols) rows n)).result =
        Except.ok (some (rows.map (mkRow cols))) ∧
      (queryCall c b (ExecOutcome.ok none rows n)).result = Except.ok none ∧
      (rows.map (mkRow cols)).length = rows.length ∧
      (∀ vals, cols.length ≤ vals.length → (mkRow cols vals).map Prod.fst = cols) := by
  refine ⟨?_, ?_, by simp, fun vals hlen => List.map_fst_zip cols vals hlen⟩
  · have hq := queryCall_ok c b (some cols) rows n hlive
    have hd : descTruthy (some cols) = true := by
      simp [descTruthy, hcols]
    rw [hd, if_pos rfl] at hq
    exact hq
  · have hq := queryCall_ok c b none rows n hlive
    simpa [descTruthy] using hq

/-- Witness for `query_shape` on a concrete open connection. -/
theorem query_shape_witness :
    (queryCall testConnOpen true (ExecOutcome.ok (some ["a", "b"]) [[Value.int 1, Value.null]] 1)).result =
      Except.ok (some [[("a", Value.int 1), ("b", Value.null)]]) :=
  (query_shape testConnOpen true ["a", "b"] [[Value.int 1, Value.null]] 1
      (Or.inr rfl) (by decide)).1

/-- C3: within a statement-executing call (here `query`, whose `_execute`
sends the statement) on an open link: a `psycopg2.OperationalError` from
the driver leaves the link handle cleared (so the next call reconnects
lazily) and is re-raised to the caller; any other driver failure is
re-raised unmodified with the link handle unchanged and the cursor closed.
(The cursor is closed on the connectivity path too, by `query`'s handler.) -/
theorem execute_error_handling (c : Connection) (a : ConnArgs) (b : Bool) (m : String)
    (hdb : c.db = some a) :
    ((queryCall c b (ExecOutcome.operationalErr m)).result =
        Except.error (PyError.operationalError m) ∧
      (queryCall c b (ExecOutcome.operationalErr m)).conn.db = none ∧
      Event.cursorClosed ∈ (queryCall c b (ExecOutcome.operationalErr m)).events) ∧
      ((queryCall c b (ExecOutcome.otherErr m)).result =
          Except.error (PyError.otherError m) ∧
        (queryCall c b (ExecOutcome.otherErr m)).conn.db = some a ∧
        Event.cursorClosed ∈ (queryCall c b (ExecOutcome.otherErr m)).events) := by
  refine ⟨⟨?_, ?_, ?_⟩, ⟨?_, ?_, ?_⟩⟩ <;>
    simp [queryCall, ensureConnectedCall, hdb, executeInner, closeConn]

/-- Witness for `execute_error_handling` on a concrete open connection. -/
theorem execute_error_handling_witness :
    (queryCall testConnOpen true (ExecOutcome.operationalErr "down")).conn.db = none ∧
      (queryCall testConnOpen true (ExecOutcome.otherErr "syntax")).conn.db = some baseArgs :=
  ⟨(execute_error_handling testConnOpen baseArgs true "down" rfl).1.2.1,
    (execute_error_handling testConnOpen baseArgs true "syntax" rfl).2.2.1⟩

/-- C4: in `execute_rowcount`, whenever a cursor is acquired it is also
closed, on the raise path as well as the return path (the `finally`
clause); and on a successful execution the call returns exactly the
driver-reported `cursor.rowcount`, whether or not a result set was
produced. -/
theorem execute_rowcount_spec (c : Connection) (b : Bool) (o : ExecOutcome) :
    (Event.cursorAcquired ∈ (executeRowcountCall c b o).events →
        Event.cursorClosed ∈ (executeRowcountCall c b o).events) ∧
      (∀ d rows n, o = ExecOutcome.ok d rows n → (c.db ≠ none ∨ b = true) →
        (executeRowcountCall c b o).result = Except.ok n) := by
  constructor
  · intro hacq
    cases hdb : c.db with
    | some a =>
      cases o <;>
        simp [executeRowcountCall, ensureConnectedCall, hdb, executeInner, closeConn]
    | none =>
      cases b with
      | true =>
        cases o <;>
          simp [executeRowcountCall, ensureConnectedCall, hdb, reconnectCall,
            closeConn, executeInner]
      | false =>
        simp [executeRowcountCall, ensureConnectedCall, hdb, reconnectCall,
          closeConn] at hacq
  · rintro d rows n rfl hlive
    cases hdb : c.db with
    | some a =>
      simp [executeRowcountCall, ensureConnectedCall, hdb, executeInner]
    | none =>
      have hb : b = true := by
        rcases hlive with h | h
        · exact absurd hdb h
        · exact h
      subst hb
      simp [executeRowcountCall, ensureConnectedCall, hdb, reconnectCall, closeConn,
        executeInner]

/-- Witness for `execute_rowcount_spec`: the failure path closes the
acquired cursor, and the success path returns the driver rowcount. -/
theorem execute_rowcount_spec_witness :
    Event.cursorClosed ∈
        (executeRowcountCall testConnOpen true (ExecOutcome.otherErr "boom")).events ∧
      (executeRowcountCall testConnOpen true (ExecOutcome.ok none [] 3)).result =
        Except.ok 3 :=
  ⟨(execute_rowcount_spec testConnOpen true (ExecOutcome.otherErr "boom")).1 (by decide),
    (execute_rowcount_spec testConnOpen true (ExecOutcome.ok none [] 3)).2 none [] 3 rfl
      (Or.inr rfl)⟩

/-- C5: after `close()` the handle is absent, and a subsequent `query` call
first reconnects with the stored `_db_args` and only then acquires its
cursor (the first two trace events), succeeding rather than failing
permanently when the driver accepts the stored arguments. -/
theorem reconnect_after_close (c : Connection) (o : ExecOutcome) :
    (closeConn c).1.db = none ∧
      (queryCall (closeConn c).1 true o).events.take 2 =
        [Event.reconnected c.db_args, Event.cursorAcquired] ∧
      (∀ d rows n, o = ExecOutcome.ok d rows n →
        ∃ v, (queryCall (closeConn c).1 true o).result = Except.ok v) := by
  cases hdb : c.db with
  | some a =>
    refine ⟨by simp [closeConn, hdb], ?_, ?_⟩
    · cases o <;>
        simp [closeConn, hdb, queryCall, ensureConnectedCall, reconnectCall, executeInner]
    · rintro d rows n rfl
      exact ⟨_, queryCall_ok (closeConn c).1 true d rows n (Or.inr rfl)⟩
  | none =>
    refine ⟨by simp [closeConn, hdb], ?_, ?_⟩
    · cases o <;>
        simp [closeConn, hdb, queryCall, ensureConnectedCall, reconnectCall, executeInner]
    · rintro d rows n rfl
      exact ⟨_, queryCall_ok (closeConn c).1 true d rows n (Or.inr rfl)⟩

/-- Witness for `reconnect_after_close` on a concrete connection. -/
theorem reconnect_after_close_witness :
    (queryCall (closeConn testConnOpen).1 true (ExecOutcome.ok none [] 0)).events.take 2 =
      [Event.reconnected baseArgs, Event.cursorAcquired] ∧
      ∃ v, (queryCall (closeConn testConnOpen).1 true (ExecOutcome.ok none [] 0)).result =
        Except.ok v :=
  ⟨(reconnect_after_close testConnOpen (ExecOutcome.ok none [] 0)).2.1,
    (reconnect_after_close testConnOpen (ExecOutcome.ok none [] 0)).2.2 none [] 0 rfl⟩

/-- C6 counterexample: at the spec's own example (`postgres://u:p@localhost:5432/testdb`
versus `host="localhost", database="testdb", user="u", password="p",
port=5432`) the two construction forms do NOT resolve the same stored
connection arguments: the URL form stores the regex capture `'5432'` (a
string) as the port, the structured form stores the integer `5432`, and the
two argument dicts are unequal. -/
theorem url_vs_structured_counterexample :
    connInit "postgres://u:p@localhost:5432/testdb" none none none 5432 true =
        Except.ok ⟨"localhost", some "testdb",
          some ⟨"localhost", some "testdb", some "u", some "p", PortVal.strVal "5432"⟩,
          ⟨"localhost", some "testdb", some "u", some "p", PortVal.strVal "5432"⟩⟩ ∧
      connInit "localhost" (some "testdb") (some "u") (some "p") 5432 true =
        Except.ok ⟨"localhost", some "testdb",
          some ⟨"localhost", some "testdb", some "u", some "p", PortVal.intVal 5432⟩,
          ⟨"localhost", some "testdb", some "u", some "p", PortVal.intVal 5432⟩⟩ ∧
      (⟨"localhost", some "testdb", some "u", some "p", PortVal.strVal "5432"⟩ : ConnArgs) ≠
        ⟨"localhost", some "testdb", some "u", some "p", PortVal.intVal 5432⟩ := by
  refine ⟨rfl, rfl, by decide⟩

/-- C6 amended: for user, password and database drawn from the pattern's
character classes (word characters and hyphens; user and database
nonempty), a host free of `:` and newline, and any ports, the URL form
resolves the same stored host, database name, user and password as the
structured form; the stored ports differ in representation only — the URL
form stores the port's digit text where the structured form stores the
number passed in. -/
theorem url_vs_structured_amended (U P H PT D : List Char) (n : Nat) (b : Bool)
    (hU : U ≠ []) (hUw : ∀ c ∈ U, isWordHyphen c = true)
    (hP : ∀ c ∈ P, isWordHyphen c = true)
    (hH : ∀ c ∈ H, c ≠ ':' ∧ c ≠ '\n')
    (hPT : PT ≠ []) (hPTd : ∀ c ∈ PT, c.isDigit = true)
    (hD : D ≠ []) (hDw : ∀ c ∈ D, isWordHyphen c = true) :
    ∃ c1 c2 : Connection,
      connInit ⟨urlLit ++ (U ++ ':' :: (P ++ '@' :: (H ++ ':' :: (PT ++ '/' :: D))))⟩
          none none none 5432 b = Except.ok c1 ∧
      connInit ⟨H⟩ (some ⟨D⟩) (some ⟨U⟩) (some ⟨P⟩) n b = Except.ok c2 ∧
      c1.db_args.host = c2.db_args.host ∧
      c1.db_args.database = c2.db_args.database ∧
      c1.db_args.user = c2.db_args.user ∧
      c1.db_args.password = c2.db_args.password ∧
      c1.db_args.port = PortVal.strVal ⟨PT⟩ ∧
      c2.db_args.port = PortVal.intVal n := by
  have hmt := matchUserTail_eq hU hUw hP hH hPT hPTd hD hDw
  have hsearch := searchUrl_eq hmt
  refine ⟨⟨⟨H⟩, some ⟨D⟩,
      if b then some ⟨⟨H⟩, some ⟨D⟩, some ⟨U⟩, some ⟨P⟩, PortVal.strVal ⟨PT⟩⟩ else none,
      ⟨⟨H⟩, some ⟨D⟩, some ⟨U⟩, some ⟨P⟩, PortVal.strVal ⟨PT⟩⟩⟩,
    ⟨⟨H⟩, some ⟨D⟩,
      if b then some ⟨⟨H⟩, some ⟨D⟩, some ⟨U⟩, some ⟨P⟩, PortVal.intVal n⟩ else none,
      ⟨⟨H⟩, some ⟨D⟩, some ⟨U⟩, some ⟨P⟩, PortVal.intVal n⟩⟩,
    ?_, ?_, rfl, rfl, rfl, rfl, rfl, rfl⟩
  · have hcond : pyStartsWith
        ⟨urlLit ++ (U ++ ':' :: (P ++ '@' :: (H ++ ':' :: (PT ++ '/' :: D))))⟩
        "postgres://" = true := by
      show startsWithChars urlLit
        (urlLit ++ (U ++ ':' :: (P ++ '@' :: (H ++ ':' :: (PT ++ '/' :: D))))) = true
      exact startsWithChars_append _ _
    have hsl : (⟨urlLit ++ (U ++ ':' :: (P ++ '@' :: (H ++ ':' :: (PT ++ '/' :: D))))⟩ :
        String).toList = urlLit ++ (U ++ ':' :: (P ++ '@' :: (H ++ ':' :: (PT ++ '/' :: D)))) :=
      rfl
    simp only [connInit, hcond, if_true, hsl, hsearch]
  · have hcond2 : pyStartsWith ⟨H⟩ "postgres://" = false := by
      show startsWithChars urlLit H = false
      cases h : startsWithChars urlLit H
      · rfl
      · exact absurd rfl ((hH ':' (mem_of_startsWithChars h (by decide))).1)
    simp only [connInit, hcond2, Bool.false_eq_true, if_false]

/-- Witness for `url_vs_structured_amended` at
`postgres://u:p@h:1/db` versus `(host="h", database="db", user="u",
password="p", port=9)`. -/
theorem url_vs_structured_amended_witness :
    ∃ c1 c2 : Connection,
      connInit ⟨urlLit ++ (['u'] ++ ':' :: (['p'] ++ '@' :: (['h'] ++ ':' :: (['1'] ++ '/' :: ['d', 'b']))))⟩
          none none none 5432 true = Except.ok c1 ∧
      connInit ⟨['h']⟩ (some ⟨['d', 'b']⟩) (some ⟨['u']⟩) (some ⟨['p']⟩) 9 true = Except.ok c2 ∧
      c1.db_args.host = c2.db_args.host ∧
      c1.db_args.database = c2.db_args.database ∧
      c1.db_args.user = c2.db_args.user ∧
      c1.db_args.password = c2.db_args.password ∧
      c1.db_args.port = PortVal.strVal ⟨['1']⟩ ∧
      c2.db_args.port = PortVal.intVal 9 :=
  url_vs_structured_amended ['u'] ['p'] ['h'] ['1'] ['d', 'b'] 9 true (by decide)
    (by decide) (by decide) (by decide) (by decide) (by decide) (by decide) (by decide)
